import Mathlib

/-!
Verification of `scripts/keyboard_steer.py`: a keyboard-driven lateral-control
signal generator that encodes Hyundai/Kia LKAS11 steering frames (identifier
0x340) and emits them from a 50 Hz control loop.

Model: Python byte values are `Nat`s (< 256), Python `int` is `Int`.
Python's bitwise `&` on a possibly negative `int` is two's-complement, which is
exactly Mathlib's `Int.land`.  A frame (`bytes` of length 8) is a `List Nat`.
The `main` loop is modelled as a step function `tick` on a `LoopState`
(rolling counter and current torque); the key read on a tick is an
`Option Char` (`none` = no key before the timeout), and a `none` result of
`tick` is the `break` taken on key `'q'`.
-/

namespace KeyboardSteer

def BUS : Int := 0

def STEER_MAX : Int := 1023

def STEER_STEP : Int := 300

/-- `checksum(data)`: `(0x100 - sum(data) % 0x100) % 0x100`, the simple
checksum used on Hyundai LKAS11 messages. -/
def checksum (data : List Nat) : Nat :=
  (0x100 - data.sum % 0x100) % 0x100

/-- `build_lkas11(torque, counter, steer_req=True)`: construct an LKAS11
message with the desired steering torque.  Mirrors the Python source line by
line: clamp to `[-STEER_MAX, STEER_MAX]`, split into sign and magnitude, pack
`counter` into the high nibble of byte 0 and the request flag into its low
bit, magnitude high bits and sign into byte 2, magnitude low byte into
byte 3, checksum over bytes 0..6 into byte 7. -/
def build_lkas11 (torque : Int) (counter : Int)
    (steer_req : optParam Bool true) : List Nat :=
  let t := max (-STEER_MAX) (min STEER_MAX torque)
  let sign : Nat := if 0 ≤ t then 0 else 1
  let m : Nat := t.natAbs
  let b0 :=
    let b := (Int.land counter 0xF).toNat <<< 4
    if steer_req then b ||| 0x1 else b
  let b2 := ((m >>> 8) &&& 0x7) ||| (sign <<< 3)
  let b3 := m &&& 0xFF
  let front := [b0, 0x00, b2, b3, 0x00, 0x00, 0x00]
  front ++ [checksum front]

/-- One loop state of `main`: the rolling `counter` and the current `torque`. -/
structure LoopState where
  counter : Int
  torque : Int
deriving Repr, DecidableEq

/-- The frame-emitting tail of a loop iteration of `main`: build the message
with `steer_req = (torque != 0)`, send it, advance the counter mod 16. -/
def emit (st : LoopState) (torque : Int) : Option (List Nat × LoopState) :=
  some (build_lkas11 torque st.counter (torque != 0),
        ⟨(st.counter + 1) % 16, torque⟩)

/-- One iteration of `main`'s `while` loop given the key read on this tick;
a `none` result is the `break` taken on `'q'` (no frame is sent then). -/
def tick (st : LoopState) (key : Option Char) : Option (List Nat × LoopState) :=
  if key = some 's' then emit st (-STEER_STEP)
  else if key = some 'd' then emit st STEER_STEP
  else if key = some 'q' then none
  else if key ≠ none then emit st 0
  else emit st st.torque

/-- Frames sent by running `main`'s loop from `st` over a key sequence:
stops at the first `'q'`, otherwise one frame per tick. -/
def run (st : LoopState) : List (Option Char) → List (List Nat)
  | [] => []
  | k :: ks =>
    match tick st k with
    | none => []
    | some (msg, st') => msg :: run st' ks

/-- `main` starts with `counter = 0`, `torque = 0`. -/
def initState : LoopState := ⟨0, 0⟩

/-- The torque after the clamp on the first line of `build_lkas11`. -/
def clampedTorque (torque : Int) : Int := max (-STEER_MAX) (min STEER_MAX torque)

/-- The magnitude `abs(t)` of the clamped torque. -/
def magOf (torque : Int) : Nat := (clampedTorque torque).natAbs

/-- The sign bit of the clamped torque: `0 if t >= 0 else 1`. -/
def signOf (torque : Int) : Nat := if 0 ≤ clampedTorque torque then 0 else 1

/-- Arithmetic form of byte 0: counter (low 4 bits) in the high nibble,
request flag in the low bit. -/
def byte0 (counter : Int) (sr : Bool) : Nat :=
  16 * (counter % 16).toNat + (if sr then 1 else 0)

/-- Arithmetic form of byte 2: top bits of the magnitude plus the sign bit. -/
def byte2 (torque : Int) : Nat := magOf torque / 256 + 8 * signOf torque

/-- Arithmetic form of byte 3: low byte of the magnitude. -/
def byte3 (torque : Int) : Nat := magOf torque % 256

/-! ### Bridge lemmas: bitwise operations to arithmetic -/

theorem and_fifteen (x : Nat) : x &&& 15 = x % 16 := by
  have h := Nat.and_pow_two_sub_one_eq_mod x 4
  norm_num at h
  exact h

theorem and_seven (x : Nat) : x &&& 7 = x % 8 := by
  have h := Nat.and_pow_two_sub_one_eq_mod x 3
  norm_num at h
  exact h

theorem and_twofiftyfive (x : Nat) : x &&& 255 = x % 256 := by
  have h := Nat.and_pow_two_sub_one_eq_mod x 8
  norm_num at h
  exact h

theorem or_one_shift (x : Nat) (hx : x < 16) : (x <<< 4) ||| 1 = 16 * x + 1 := by
  interval_cases x <;> rfl

theorem or_eight_small (x : Nat) (hx : x < 4) : x ||| 8 = x + 8 := by
  interval_cases x <;> rfl

/-- On the low 4 bits, `ldiff 15 m` is the complement of `m`'s low nibble. -/
theorem ldiff_fifteen (m : Nat) : Nat.ldiff 15 m = 15 - m % 16 := by
  apply Nat.eq_of_testBit_eq
  intro i
  rw [Nat.testBit_ldiff]
  rcases Nat.lt_or_ge i 4 with hi | hi
  · have hm : Nat.testBit (m % 16) i = Nat.testBit m i := by
      rw [show (16 : ℕ) = 2 ^ 4 from rfl, Nat.testBit_mod_two_pow]
      simp [hi]
    rw [← hm]
    have h2 : m % 16 < 16 := Nat.mod_lt _ (by norm_num)
    obtain ⟨r, hr, hrm⟩ : ∃ r, r < 16 ∧ m % 16 = r := ⟨m % 16, h2, rfl⟩
    rw [hrm]
    interval_cases r <;> interval_cases i <;> decide
  · have hpow : (15 : ℕ) < 2 ^ i :=
      calc (15 : ℕ) < 2 ^ 4 := by norm_num
        _ ≤ 2 ^ i := Nat.pow_le_pow_right (by norm_num) hi
    have h15 : Nat.testBit 15 i = false := Nat.testBit_lt_two_pow hpow
    have hsub : Nat.testBit (15 - m % 16) i = false :=
      Nat.testBit_lt_two_pow (by omega)
    rw [h15, hsub]
    rfl

/-- Python's `c & 0xF` on an arbitrary (possibly negative) integer is
`c mod 16` with a nonnegative result, i.e. Lean's `Int.emod`. -/
theorem land_fifteen_emod (c : Int) : Int.land c 15 = c % 16 := by
  cases c with
  | ofNat m =>
    show ((m &&& 15 : ℕ) : ℤ) = (m : ℤ) % 16
    rw [and_fifteen]
    omega
  | negSucc m =>
    show ((Nat.ldiff 15 m : ℕ) : ℤ) = Int.negSucc m % 16
    rw [ldiff_fifteen, Int.negSucc_eq]
    omega

theorem b0_eq (counter : Int) (sr : Bool) :
    (if sr then ((Int.land counter 15).toNat <<< 4) ||| 1
     else (Int.land counter 15).toNat <<< 4) = byte0 counter sr := by
  have hl : Int.land counter 15 = counter % 16 := land_fifteen_emod counter
  have hlt : (counter % 16).toNat < 16 := by omega
  have hshift : (counter % 16).toNat <<< 4 = 16 * (counter % 16).toNat := by
    rw [Nat.shiftLeft_eq]
    ring
  rw [hl]
  unfold byte0
  cases sr
  · simp [hshift]
  · simp [or_one_shift _ hlt]

theorem magOf_le (torque : Int) : magOf torque ≤ 1023 := by
  simp only [magOf, clampedTorque, STEER_MAX]
  omega

theorem b2_eq (torque : Int) :
    ((magOf torque >>> 8) &&& 7) ||| (signOf torque <<< 3) = byte2 torque := by
  have hm := magOf_le torque
  have hdiv : magOf torque >>> 8 = magOf torque / 256 := by
    rw [Nat.shiftRight_eq_div_pow]
  have hdlt : magOf torque / 256 < 4 := by omega
  have hand : (magOf torque / 256) &&& 7 = magOf torque / 256 := by
    rw [and_seven]
    omega
  have hs : signOf torque = 0 ∨ signOf torque = 1 := by
    unfold signOf
    split <;> simp
  rcases hs with hs | hs
  · rw [hdiv, hand, hs]
    unfold byte2
    rw [hs]
    simp
  · rw [hdiv, hand, hs]
    unfold byte2
    rw [hs, show (1 : ℕ) <<< 3 = 8 from rfl, or_eight_small _ hdlt]

/-- Closed arithmetic form of `build_lkas11`: every byte written with
`+`, `*`, `/`, `%` instead of the source's bitwise operators. -/
theorem build_lkas11_eq (torque counter : Int) (sr : Bool) :
    build_lkas11 torque counter sr =
      [byte0 counter sr, 0, byte2 torque, byte3 torque, 0, 0, 0,
       (256 - (byte0 counter sr + byte2 torque + byte3 torque) % 256) % 256] := by
  have hfold_m : (max (-STEER_MAX) (min STEER_MAX torque)).natAbs = magOf torque := rfl
  have hfold_s :
      (if 0 ≤ max (-STEER_MAX) (min STEER_MAX torque) then (0 : ℕ) else 1) =
        signOf torque := rfl
  have h3 : magOf torque &&& 255 = byte3 torque := by
    rw [and_twofiftyfive]
    rfl
  simp only [build_lkas11, checksum, hfold_m, hfold_s, b0_eq, b2_eq, h3,
    List.append_eq, List.cons_append, List.nil_append, List.sum_cons, List.sum_nil,
    List.cons.injEq, and_true, true_and]
  omega

/-! ### Byte extraction helpers -/

theorem getD0 (a0 a1 a2 a3 a4 a5 a6 a7 d : Nat) :
    List.getD [a0, a1, a2, a3, a4, a5, a6, a7] 0 d = a0 := rfl

theorem getD2 (a0 a1 a2 a3 a4 a5 a6 a7 d : Nat) :
    List.getD [a0, a1, a2, a3, a4, a5, a6, a7] 2 d = a2 := rfl

theorem getD3 (a0 a1 a2 a3 a4 a5 a6 a7 d : Nat) :
    List.getD [a0, a1, a2, a3, a4, a5, a6, a7] 3 d = a3 := rfl

theorem getD7 (a0 a1 a2 a3 a4 a5 a6 a7 d : Nat) :
    List.getD [a0, a1, a2, a3, a4, a5, a6, a7] 7 d = a7 := rfl

/-- Bit 0 of byte 0 of any frame is exactly the request flag. -/
theorem build_bit0 (t c : Int) (sr : Bool) :
    (build_lkas11 t c sr).getD 0 0 &&& 1 = (if sr then 1 else 0) := by
  rw [build_lkas11_eq, getD0]
  unfold byte0
  rw [Nat.and_one_is_mod]
  have h : (if sr then (1 : ℕ) else 0) ≤ 1 := by split <;> omega
  omega

/-- The high nibble of byte 0 of any frame is the counter mod 16. -/
theorem build_b0_shift (t c : Int) (sr : Bool) :
    (build_lkas11 t c sr).getD 0 0 >>> 4 = (c % 16).toNat := by
  rw [build_lkas11_eq, getD0]
  unfold byte0
  rw [Nat.shiftRight_eq_div_pow, show (2 : ℕ) ^ 4 = 16 from rfl]
  have h : (if sr then (1 : ℕ) else 0) ≤ 1 := by split <;> omega
  omega

/-- Any successful `tick` emitted the frame built from the new torque, the
old counter and the flag `torque != 0`, and advanced the counter mod 16. -/
theorem tick_some (st : LoopState) (key : Option Char) (msg : List Nat)
    (st' : LoopState) (h : tick st key = some (msg, st')) :
    msg = build_lkas11 st'.torque st.counter (st'.torque != 0) ∧
    st'.counter = (st.counter + 1) % 16 := by
  unfold tick at h
  split_ifs at h
  all_goals
    first
    | exact absurd h (by simp)
    | · simp only [emit, Option.some.injEq, Prod.mk.injEq] at h
        obtain ⟨rfl, rfl⟩ := h
        exact ⟨rfl, rfl⟩

/-! ### Claims -/

/-- C1: for every torque, every counter in [0, 15] and every request flag,
byte 7 of the 8-byte frame returned by `build_lkas11` equals
`(0x100 - (sum of bytes 0..6 mod 0x100)) mod 0x100`, and consequently the
sum of all 8 bytes of the frame, taken mod 256, equals 0. -/
theorem C1_checksum (torque counter : Int) (sr : Bool)
    (hc0 : 0 ≤ counter) (hc1 : counter < 16) :
    (build_lkas11 torque counter sr).getD 7 0 =
      (0x100 - ((build_lkas11 torque counter sr).take 7).sum % 0x100) % 0x100 ∧
    (build_lkas11 torque counter sr).sum % 256 = 0 := by
  rw [build_lkas11_eq]
  rw [getD7]
  simp only [List.take_succ_cons, List.take_zero, List.sum_cons, List.sum_nil]
  omega

/-- C1 witness at torque 500, counter 7, request active. -/
theorem C1_checksum_witness :
    (0 : Int) ≤ 7 ∧ (7 : Int) < 16 ∧
    ((build_lkas11 500 7 true).getD 7 0 =
        (0x100 - ((build_lkas11 500 7 true).take 7).sum % 0x100) % 0x100 ∧
      (build_lkas11 500 7 true).sum % 256 = 0) :=
  ⟨by decide, by decide, C1_checksum 500 7 true (by decide) (by decide)⟩

/-- C2: `build_lkas11(-300, 5, True)` returns the frame
`[0x51, 0x00, 0x09, 0x2C, 0x00, 0x00, 0x00, 0x7A]` (byte 7 is the
checksum 0x7A). -/
theorem C2_scenario :
    build_lkas11 (-300) 5 true =
      [0x51, 0x00, 0x09, 0x2C, 0x00, 0x00, 0x00, 0x7A] := by
  decide

/-- C3: for torque in [-2000, 2000], counter in [0, 15] and any request
flag, the encoded magnitude (bits 0-2 of byte 2 as high bits together with
byte 3) equals the absolute value of the torque clamped to [-1023, 1023],
is at most 1023, and bit 3 of byte 2 is 1 exactly when the clamped torque
is negative. -/
theorem C3_clamp (torque counter : Int) (sr : Bool)
    (ht0 : -2000 ≤ torque) (ht1 : torque ≤ 2000)
    (hc0 : 0 ≤ counter) (hc1 : counter < 16) :
    ((build_lkas11 torque counter sr).getD 2 0 &&& 7) * 256 +
        (build_lkas11 torque counter sr).getD 3 0 =
      (max (-1023) (min 1023 torque)).natAbs ∧
    (max (-1023) (min 1023 torque)).natAbs ≤ 1023 ∧
    ((build_lkas11 torque counter sr).getD 2 0 >>> 3) &&& 1 =
      (if max (-1023) (min 1023 torque) < 0 then 1 else 0) := by
  have hm : magOf torque ≤ 1023 := magOf_le torque
  have hmagEq : magOf torque = (max (-1023) (min 1023 torque)).natAbs := rfl
  have hs01 : signOf torque = 0 ∨ signOf torque = 1 := by
    unfold signOf
    split <;> simp
  have hsEq : signOf torque =
      (if max (-1023) (min 1023 torque) < 0 then 1 else 0) := by
    unfold signOf clampedTorque STEER_MAX
    split <;> split <;> omega
  rw [build_lkas11_eq, getD2, getD3]
  refine ⟨?_, ?_, ?_⟩
  · unfold byte2 byte3
    rw [and_seven, hmagEq]
    omega
  · omega
  · unfold byte2
    rw [Nat.shiftRight_eq_div_pow, show (2 : ℕ) ^ 3 = 8 from rfl,
      Nat.and_one_is_mod, ← hsEq]
    omega

/-- C3 witness at torque 1500 (clamped to 1023), counter 3. -/
theorem C3_clamp_witness :
    (-2000 : Int) ≤ 1500 ∧ (1500 : Int) ≤ 2000 ∧ (0 : Int) ≤ 3 ∧
    (3 : Int) < 16 ∧
    (((build_lkas11 1500 3 true).getD 2 0 &&& 7) * 256 +
          (build_lkas11 1500 3 true).getD 3 0 =
        (max (-1023) (min 1023 1500)).natAbs ∧
      (max (-1023) (min 1023 1500)).natAbs ≤ 1023 ∧
      ((build_lkas11 1500 3 true).getD 2 0 >>> 3) &&& 1 =
        (if max (-1023) (min 1023 (1500 : Int)) < 0 then 1 else 0)) :=
  ⟨by decide, by decide, by decide, by decide,
    C3_clamp 1500 3 true (by decide) (by decide) (by decide) (by decide)⟩

/-- C4: for every counter in [0, 15] and any torque and request flag, the
high nibble of byte 0 equals the counter: `(byte0 >>> 4) &&& 0xF = counter`. -/
theorem C4_counter_nibble (torque counter : Int) (sr : Bool)
    (hc0 : 0 ≤ counter) (hc1 : counter < 16) :
    ((((build_lkas11 torque counter sr).getD 0 0 >>> 4) &&& 0xF : ℕ) : ℤ) =
      counter := by
  rw [build_b0_shift, and_fifteen]
  omega

/-- C4 witness at counter 12. -/
theorem C4_counter_nibble_witness :
    (0 : Int) ≤ 12 ∧ (12 : Int) < 16 ∧
    ((((build_lkas11 (-77) 12 false).getD 0 0 >>> 4) &&& 0xF : ℕ) : ℤ) = 12 :=
  ⟨by decide, by decide, C4_counter_nibble (-77) 12 false (by decide) (by decide)⟩

/-- C5: on every tick of the control loop, the request flag passed to the
encoder is true iff the tick's torque is non-zero, and bit 0 of byte 0 of
the emitted frame equals that flag. -/
theorem C5_request_flag (st : LoopState) (key : Option Char)
    (msg : List Nat) (st' : LoopState) (h : tick st key = some (msg, st')) :
    msg = build_lkas11 st'.torque st.counter (st'.torque != 0) ∧
    msg.getD 0 0 &&& 1 = (if st'.torque ≠ 0 then 1 else 0) := by
  obtain ⟨hmsg, -⟩ := tick_some st key msg st' h
  refine ⟨hmsg, ?_⟩
  rw [hmsg, build_bit0]
  by_cases ht : st'.torque = 0 <;> simp [ht]

/-- C5 witness: the tick after pressing `'s'` from the initial state. -/
theorem C5_request_flag_witness :
    (build_lkas11 (-300) 0 ((-300 : Int) != 0) =
        build_lkas11 (-300) 0 ((-300 : Int) != 0)) ∧
    (build_lkas11 (-300) 0 ((-300 : Int) != 0)).getD 0 0 &&& 1 =
      (if (-300 : Int) ≠ 0 then 1 else 0) :=
  C5_request_flag initState (some 's')
    (build_lkas11 (-300) 0 ((-300 : Int) != 0)) ⟨1, -300⟩ rfl

/-- In any run, the i-th emitted frame carries `(start counter + i) mod 16`
in the high nibble of its byte 0. -/
theorem run_counter_nibble (ks : List (Option Char)) (st : LoopState)
    (hc0 : 0 ≤ st.counter) (hc1 : st.counter < 16) (i : Nat)
    (hi : i < (run st ks).length) :
    ((run st ks).getD i []).getD 0 0 >>> 4 = (st.counter.toNat + i) % 16 := by
  induction ks generalizing st i with
  | nil => simp [run] at hi
  | cons k ks ih =>
    rcases h : tick st k with _ | ⟨msg, st'⟩
    · rw [run, h] at hi
      simp at hi
    · obtain ⟨hmsg, hcnt⟩ := tick_some st k msg st' h
      rw [run, h] at hi ⊢
      cases i with
      | zero =>
        simp only [List.getD_cons_zero]
        rw [hmsg, build_b0_shift]
        omega
      | succ i =>
        simp only [List.getD_cons_succ]
        simp only [List.length_cons, Nat.succ_lt_succ_iff] at hi
        rw [ih st' (by omega) (by omega) i hi]
        omega

/-- C6: starting from `main`'s initial state, the counter carried in the
high nibble of byte 0 of the i-th emitted frame (0-based) is `i mod 16`,
i.e. the sequence 0, 1, ..., 15, 0, 1, ... regardless of the key history. -/
theorem C6_rolling_counter (ks : List (Option Char)) (i : Nat)
    (hi : i < (run initState ks).length) :
    ((run initState ks).getD i []).getD 0 0 >>> 4 = i % 16 := by
  have h := run_counter_nibble ks initState (by decide) (by decide) i hi
  simpa [show initState.counter.toNat = 0 from rfl] using h

/-- C6 witness: 18 idle ticks; the 18th frame (index 17) carries 17 mod 16. -/
theorem C6_rolling_counter_witness :
    17 < (run initState (List.replicate 18 none)).length ∧
    ((run initState (List.replicate 18 none)).getD 17 []).getD 0 0 >>> 4 =
      17 % 16 :=
  ⟨by decide, C6_rolling_counter (List.replicate 18 none) 17 (by decide)⟩

/-- C7: reading `'q'` breaks out of the loop before any send, so no frame is
emitted on the quit tick or on any later tick: the frames of a run are
unchanged by whatever follows the first `'q'`. -/
theorem C7_quit_stops (st : LoopState) (pre post : List (Option Char)) :
    run st (some 'q' :: post) = [] ∧
    run st (pre ++ some 'q' :: post) = run st (pre ++ [some 'q']) := by
  constructor
  · rfl
  · induction pre generalizing st with
    | nil => rfl
    | cons k pre ih =>
      show run st (k :: (pre ++ some 'q' :: post)) =
        run st (k :: (pre ++ [some 'q']))
      rw [run, run]
      rcases h : tick st k with _ | ⟨msg, st'⟩
      · rfl
      · show msg :: run st' (pre ++ some 'q' :: post) =
          msg :: run st' (pre ++ [some 'q'])
        rw [ih st']

/-- C8 counterexample: a tick with no key read does not yield torque 0 when
the previous torque was non-zero — the loop keeps (latches) torque 300. -/
theorem C8_no_neutral_on_idle :
    (tick ⟨0, 300⟩ none).map (fun p => p.2.torque) = some 300 ∧
    (300 : Int) ≠ 0 := by
  constructor
  · rfl
  · decide

/-- C8 amended: the loop has no hold-policy configuration; its only
behavior is latch-last-value: a tick on which no key is read keeps the
previous torque (and emits the frame built from it). -/
theorem C8_latch_last_value (st : LoopState) :
    tick st none =
      some (build_lkas11 st.torque st.counter (st.torque != 0),
        ⟨(st.counter + 1) % 16, st.torque⟩) := rfl

/-- C9: `steer_req` defaults to `True`, and for torque 0 with the flag true
the frame has bit 0 of byte 0 set to 1 while its torque fields (byte 2 bits
0-3 and byte 3) are all zero: the encoder itself does not enforce the
request/torque coupling; only the loop's call site does. -/
theorem C9_encoder_uncoupled (counter : Int) :
    build_lkas11 0 counter = build_lkas11 0 counter true ∧
    (build_lkas11 0 counter true).getD 0 0 &&& 1 = 1 ∧
    (build_lkas11 0 counter true).getD 2 0 &&& 0xF = 0 ∧
    (build_lkas11 0 counter true).getD 3 0 = 0 := by
  refine ⟨rfl, ?_, ?_, ?_⟩
  · rw [build_bit0]
    simp
  · rw [build_lkas11_eq, getD2]
    decide
  · rw [build_lkas11_eq, getD3]
    decide

/-- C10: only the low 4 bits of the counter affect the frame: for every
integer counter (also outside [0, 15]), the frame equals the one built from
`counter mod 16`. -/
theorem C10_counter_mod16 (torque counter : Int) (sr : Bool) :
    build_lkas11 torque counter sr = build_lkas11 torque (counter % 16) sr := by
  have h : Int.land counter 0xF = Int.land (counter % 16) 0xF := by
    rw [land_fifteen_emod, land_fifteen_emod]
    omega
  unfold build_lkas11
  rw [h]

end KeyboardSteer
